import Mathlib

/-!
Verification of the ingestion/cleaning pipeline and the statistics
aggregation engine of `report_generator.py` (student multi-track data
report).  The Python source is shallowly embedded: every cell-level
cleaning step of `load_and_clean_excel` and every view computed by
`compute_statistics` is translated into an executable Lean definition,
and the specification's claims are settled as theorems about those
definitions.

Modelling conventions:
* A spreadsheet cell is a `Cell`: a float `NaN` (blank cell), a `pd.NA`
  (the result of the missing-token substitution), a string, a numeric
  value in plain positional decimal notation (the form `str()` gives to
  floats in the magnitude range of grades/percentages), or a boolean.
* Python exceptions are modelled with `Except String`; functions whose
  Python counterparts cannot raise are total.
* `pandas` missing-value semantics: `NaN`/`pd.NA` cells print as
  `"nan"` / `"<NA>"` under `astype(str)`, compare unequal to everything
  under `==` (and comparing *anything* against a `pd.NA`-holding column
  poisons the boolean mask, which raises on indexing), and are skipped
  by `mean`.  Group keys that are missing are dropped by `groupby`.
* Rationals (`ℚ`) stand for the finite doubles actually produced by the
  arithmetic; `Option` encodes `NaN`/null results of aggregations.
-/

namespace ReportGen

/-- Character of a single decimal digit; inputs `≥ 9` clamp to `'9'`
(they never occur: every use is applied to `n % 10` or a `Fin 10`). -/
def digitChar (n : Nat) : Char :=
  match n with
  | 0 => '0' | 1 => '1' | 2 => '2' | 3 => '3' | 4 => '4'
  | 5 => '5' | 6 => '6' | 7 => '7' | 8 => '8' | _ => '9'

/-- Numeric value of a digit character. -/
def charVal (c : Char) : Nat := c.toNat - 48

/-- Value of a big-endian string of digit characters. -/
def digitsToNat (l : List Char) : Nat :=
  l.foldl (fun a c => 10 * a + charVal c) 0

/-- Decimal digits of `n`, most significant first (fuel-driven so that
the definition reduces structurally; `fuel > n` suffices). -/
def natToDigitsAux : Nat → Nat → List Char
  | 0, _ => []
  | fuel + 1, n =>
    if n < 10 then [digitChar n]
    else natToDigitsAux fuel (n / 10) ++ [digitChar (n % 10)]

/-- Decimal digits of `n`, most significant first. -/
def natToDigits (n : Nat) : List Char := natToDigitsAux (n + 1) n

/-- A numeric cell value in plain positional decimal notation: sign,
integer part, fractional digits.  This is the textual form Python's
`str()` gives to the floats occurring in the data (scores, percentages);
`str()` always prints at least one fractional digit (`str(3.0)=\"3.0\"`). -/
structure Decimal where
  neg : Bool
  ip : Nat
  fp : List (Fin 10)
  deriving DecidableEq

/-- Rational value denoted by a `Decimal`. -/
def Decimal.toRat (d : Decimal) : ℚ :=
  (if d.neg then -1 else 1) *
    ((d.ip : ℚ) + ((d.fp.foldl (fun a i => 10 * a + i.val) 0 : ℕ) : ℚ) / 10 ^ d.fp.length)

/-- Characters of the `str()` rendering of a `Decimal`. -/
def Decimal.render (d : Decimal) : List Char :=
  (if d.neg then ['-'] else []) ++ natToDigits d.ip ++
    '.' :: (if d.fp.isEmpty then ['0'] else d.fp.map (fun i => digitChar i.val))

/-- A spreadsheet cell as seen by the cleaning pipeline. -/
inductive Cell where
  | nan                -- float NaN: a blank source cell
  | na                 -- pd.NA: produced by the missing-token substitution
  | str (s : String)
  | num (d : Decimal)
  | bool (b : Bool)
  deriving DecidableEq

/-- The literal tokens treated as missing by
`df.replace(["Waived", "N/A", "NA", ""], pd.NA)`. -/
def missingTokens : List String := ["Waived", "N/A", "NA", ""]

/-- One cell of `df.replace(["Waived", "N/A", "NA", ""], pd.NA)`:
string cells equal to a missing token become `pd.NA`; every other cell
is unchanged (`replace` matches by equality, so numeric and boolean
cells never match the string tokens). -/
def substituteMissing (c : Cell) : Cell :=
  match c with
  | .str s => if s ∈ missingTokens then .na else c
  | _ => c

/-- One cell of `.astype(str)`: Python's `str()` of the cell value
(`str(float(\"nan\")) = \"nan\"`, `str(pd.NA) = \"<NA>\"`,
`str(True) = \"True\"`). -/
def cellToStr (c : Cell) : String :=
  match c with
  | .nan => "nan"
  | .na => "<NA>"
  | .str s => s
  | .num d => ⟨d.render⟩
  | .bool b => if b then "True" else "False"

/-- First (leftmost) match of the regex `\d+\.?\d*` in a character
list, split into the digits before and after the optional decimal
point: leftmost-first, then each greedy piece maximal.  `none` when the
list holds no digit. -/
def extractFirstNumber : List Char → Option (List Char × List Char)
  | [] => none
  | c :: cs =>
    if c.isDigit then
      let ds := (c :: cs).dropWhile Char.isDigit
      some ((c :: cs).takeWhile Char.isDigit,
        if ds.head? = some '.' then ds.tail.takeWhile Char.isDigit else [])
    else extractFirstNumber cs

/-- Value of an extracted match `d1 [. d2]` as parsed by
`pd.to_numeric` (which always succeeds on that shape). -/
def numVal (d1 d2 : List Char) : ℚ :=
  (digitsToNat d1 : ℚ) + (digitsToNat d2 : ℚ) / 10 ^ d2.length

/-- `str.extract(r'(\d+\.?\d*)')` followed by
`pd.to_numeric(..., errors="coerce")` on one string: the first maximal
numeric substring, or null when there is none. -/
def coerceNumericStr (s : String) : Option ℚ :=
  (extractFirstNumber s.data).map fun p => numVal p.1 p.2

/-- Full numeric-column pipeline on one raw cell: missing-token
substitution, `astype(str)`, regex extraction, `to_numeric`. -/
def coerceNumeric (c : Cell) : Option ℚ :=
  coerceNumericStr (cellToStr (substituteMissing c))

/-- Python `str.strip()`: surrounding whitespace removed from both
ends. -/
def stripChars (l : List Char) : List Char :=
  ((l.dropWhile Char.isWhitespace).reverse.dropWhile Char.isWhitespace).reverse

/-- Python `str.upper()` on the ASCII range the pass/fail tokens live
in. -/
def upperChars (l : List Char) : List Char := l.map Char.toUpper

/-- Full pass/fail-column pipeline on one raw cell:
missing-token substitution, `astype(str).str.strip().str.upper()`, then
`.map({"Y": True, "N": False})` (dictionary lookup: anything else,
including the prints of missing values, maps to null). -/
def decodePassed (c : Cell) : Option Bool :=
  let s := upperChars (stripChars (cellToStr (substituteMissing c)).data)
  if s = ['Y'] then some true else if s = ['N'] then some false else none

/-- Python truthiness of a non-`pd.NA` cell (`bool(nan) = True`,
`bool(s) = (s ≠ \"\")`, `bool(x) = (x ≠ 0)`). -/
def cellTruthy (c : Cell) : Bool :=
  match c with
  | .nan => true
  | .na => true            -- unreachable: decodeIncome raises first
  | .str s => decide (s ≠ "")
  | .num d => decide (d.toRat ≠ 0)
  | .bool b => b

/-- Full income-column pipeline on one raw cell: missing-token
substitution then `.astype(bool)`, i.e. Python `bool()` per cell —
which raises `TypeError` on `pd.NA`. -/
def decodeIncome (c : Cell) : Except String Bool :=
  match substituteMissing c with
  | .na => .error "boolean value of NA is ambiguous"
  | c' => .ok (cellTruthy c')

/-- One raw row of a source sheet, restricted to the columns the
pipeline touches.  Cohort labels are textual in the data model. -/
structure RawRow where
  math : Cell
  english : Cell
  science : Cell
  history : Cell
  attendance : Cell
  project : Cell
  income : Cell
  passed : Cell
  cohort : Cell
  deriving DecidableEq

/-- One row of the merged, cleaned dataset (`final_df`).  `track` stays
a `Cell` because the uniform `replace` on line 49 also rewrites the
`Track` column that line 46 just attached. -/
structure Row where
  track : Cell
  math : Option ℚ
  english : Option ℚ
  science : Option ℚ
  history : Option ℚ
  attendance : Option ℚ
  project : Option ℚ
  income : Bool
  passed : Option Bool
  cohort : Cell
  deriving DecidableEq

/-- Cleaning of one row of the sheet named `trackName`: the per-column
operations of lines 46-61 of the source, cellwise. -/
def normalizeRow (trackName : String) (r : RawRow) : Except String Row := do
  let inc ← decodeIncome r.income
  pure
    { track := substituteMissing (Cell.str trackName)
    , math := coerceNumeric r.math
    , english := coerceNumeric r.english
    , science := coerceNumeric r.science
    , history := coerceNumeric r.history
    , attendance := coerceNumeric r.attendance
    , project := coerceNumeric r.project
    , income := inc
    , passed := decodePassed r.passed
    , cohort := substituteMissing r.cohort }

/-- Cleaning of one whole sheet, row order preserved. -/
def normalizeSheet (name : String) : List RawRow → Except String (List Row)
  | [] => .ok []
  | r :: rs => do
    let row ← normalizeRow name r
    let rest ← normalizeSheet name rs
    pure (row :: rest)

/-- The sheet loop of `load_and_clean_excel`, sheets concatenated in
input order. -/
def concatSheets : List (String × List RawRow) → Except String (List Row)
  | [] => .ok []
  | (name, tbl) :: rest => do
    let rows ← normalizeSheet name tbl
    let more ← concatSheets rest
    pure (rows ++ more)

/-- `load_and_clean_excel` on the sheet dictionary of the source
workbook (the one-time file read is outside the model; `pd.concat` of
an empty collection raises, matching the no-input failure). -/
def load_and_clean_excel (sheets : List (String × List RawRow)) :
    Except String (List Row) :=
  if sheets.isEmpty then .error "No objects to concatenate"
  else concatSheets sheets

/-! ### Aggregation (`compute_statistics`) -/

/-- `pandas` mean with `skipna`: the mean of the non-null values, null
when there are none (a `groupby` mean over an all-null group is `NaN`,
never `0`). -/
def meanOpt (xs : List (Option ℚ)) : Option ℚ :=
  let vs := xs.filterMap id
  if vs.isEmpty then none else some (vs.sum / vs.length)

/-- Mean of a nullable-boolean column (`True ↦ 1`, `False ↦ 0`,
nulls skipped): the pass rate. -/
def passRateOpt (xs : List (Option Bool)) : Option ℚ :=
  meanOpt (xs.map (Option.map fun b => if b then (1 : ℚ) else 0))

/-- String payload of a cell, if any. -/
def cellStr? : Cell → Option String
  | .str s => some s
  | _ => none

/-- Lexicographic code-point comparison of character lists (Python's
string order). -/
def charListLe : List Char → List Char → Bool
  | [], _ => true
  | _ :: _, [] => false
  | a :: as, b :: bs =>
    if a = b then charListLe as bs else decide (a.toNat < b.toNat)

/-- String order used when sorting group keys. -/
def strLe (a b : String) : Bool := charListLe a.data b.data

/-- Insertion into a sorted list of strings. -/
def insertSorted (s : String) : List String → List String
  | [] => [s]
  | t :: ts => if strLe s t then s :: t :: ts else t :: insertSorted s ts

/-- Ascending sort of strings (`groupby` sorts its group keys). -/
def sortStrings : List String → List String
  | [] => []
  | s :: ss => insertSorted s (sortStrings ss)

/-- Distinct non-null values of the `Track` column, ascending: the
group keys of `df.groupby("Track")` (missing keys are dropped). -/
def trackKeys (rows : List Row) : List String :=
  sortStrings ((rows.filterMap fun r => cellStr? r.track).dedup)

/-- Distinct non-null values of the `Cohort` column, ascending. -/
def cohortKeys (rows : List Row) : List String :=
  sortStrings ((rows.filterMap fun r => cellStr? r.cohort).dedup)

/-- Group keys of `df.groupby("IncomeStudent")`, ascending
(`False < True`). -/
def incomeKeys (rows : List Row) : List Bool :=
  [false, true].filter fun b => rows.any fun r => r.income == b

/-- Rows of the group with `Track` equal to the string key `k`. -/
def trackGroup (rows : List Row) (k : String) : List Row :=
  rows.filter fun r => decide (r.track = Cell.str k)

/-- Rows of the group with `Cohort` equal to the string key `k`. -/
def cohortGroup (rows : List Row) (k : String) : List Row :=
  rows.filter fun r => decide (r.cohort = Cell.str k)

/-- Rows of the group with `IncomeStudent` equal to `b`. -/
def incomeGroup (rows : List Row) (b : Bool) : List Row :=
  rows.filter fun r => r.income == b

/-- One output row of the `.agg(...)` calls: a count and the per-column
means.  `Students` is `("Track", "count")`: the number of non-null
`Track` values inside the group. -/
structure GroupStats where
  students : Nat
  mathAvg : Option ℚ
  englishAvg : Option ℚ
  scienceAvg : Option ℚ
  historyAvg : Option ℚ
  attendanceAvg : Option ℚ
  projectAvg : Option ℚ
  passRate : Option ℚ
  deriving DecidableEq

/-- The aggregation body shared by the three grouped views. -/
def statsOf (g : List Row) : GroupStats :=
  { students := g.countP fun r => (cellStr? r.track).isSome
  , mathAvg := meanOpt (g.map Row.math)
  , englishAvg := meanOpt (g.map Row.english)
  , scienceAvg := meanOpt (g.map Row.science)
  , historyAvg := meanOpt (g.map Row.history)
  , attendanceAvg := meanOpt (g.map Row.attendance)
  , projectAvg := meanOpt (g.map Row.project)
  , passRate := passRateOpt (g.map Row.passed) }

/-- `stats["track"]`: `df.groupby("Track").agg(...)`. -/
def trackView (rows : List Row) : List (String × GroupStats) :=
  (trackKeys rows).map fun k => (k, statsOf (trackGroup rows k))

/-- `stats["cohort"]`: `df.groupby("Cohort").agg(...)`. -/
def cohortView (rows : List Row) : List (String × GroupStats) :=
  (cohortKeys rows).map fun k => (k, statsOf (cohortGroup rows k))

/-- `stats["income"]`: `df.groupby("IncomeStudent").agg(...)`. -/
def incomeView (rows : List Row) : List (Bool × GroupStats) :=
  (incomeKeys rows).map fun b => (b, statsOf (incomeGroup rows b))

/-- `stats["history_by_track"]`:
`df.groupby("Track")["History"].apply(list)` — the raw ordered
`History` values per track, nulls included. -/
def historyByTrack (rows : List Row) : List (String × List (Option ℚ)) :=
  (trackKeys rows).map fun k => (k, (trackGroup rows k).map Row.history)

/-- `stats["math_comparison"]`: `df.groupby("Track")["Math"].mean()`. -/
def mathComparison (rows : List Row) : List (String × Option ℚ) :=
  (trackKeys rows).map fun k => (k, meanOpt ((trackGroup rows k).map Row.math))

/-- Distinct cells in order of first appearance, skipping those
already seen. -/
def uniqueAux : List Cell → List Cell → List Cell
  | [], _ => []
  | c :: cs, seen =>
    if c ∈ seen then uniqueAux cs seen else c :: uniqueAux cs (c :: seen)

/-- `df["Track"].unique()`: distinct `Track` cells in order of first
appearance (a missing key appears once, like `unique`'s single `NaN`). -/
def corrKeys (rows : List Row) : List Cell :=
  uniqueAux (rows.map Row.track) []

/-- Elementwise `==` of `pandas`, restricted to the shapes a `Track`
cell takes: missing values compare unequal to everything (`NaN ≠ NaN`,
and the `pd.NA` case is reached only when masking already raised). -/
def pyEq : Cell → Cell → Bool
  | Cell.nan, _ => false
  | _, Cell.nan => false
  | Cell.na, _ => false
  | _, Cell.na => false
  | Cell.str a, Cell.str b => a == b
  | Cell.num a, Cell.num b => decide (a.toRat = b.toRat)
  | Cell.bool a, Cell.bool b => a == b
  | Cell.num a, Cell.bool b => decide (a.toRat = (if b then (1 : ℚ) else 0))
  | Cell.bool a, Cell.num b => decide ((if a then (1 : ℚ) else 0) = b.toRat)
  | _, _ => false

/-- The `(attendance, project)` pairs `DataFrame.corr` actually uses
for the track keyed `k`: the track's rows with both fields non-null. -/
def validPairs (rows : List Row) (k : Cell) : List (ℚ × ℚ) :=
  (rows.filter fun r => pyEq r.track k).filterMap fun r =>
    match r.attendance, r.project with
    | some a, some p => some (a, p)
    | _, _ => none

/-- Mean of a list of rationals (`0` on the empty list, which is only
ever hit inside the degenerate branch below). -/
def qmean (xs : List ℚ) : ℚ := xs.sum / xs.length

/-- Centered sum of squares of the first coordinates. -/
def sxx (ps : List (ℚ × ℚ)) : ℚ :=
  ((ps.map Prod.fst).map fun x => (x - qmean (ps.map Prod.fst)) ^ 2).sum

/-- Centered sum of squares of the second coordinates. -/
def syy (ps : List (ℚ × ℚ)) : ℚ :=
  ((ps.map Prod.snd).map fun y => (y - qmean (ps.map Prod.snd)) ^ 2).sum

/-- Centered sum of products. -/
def sxy (ps : List (ℚ × ℚ)) : ℚ :=
  (ps.map fun p => (p.1 - qmean (ps.map Prod.fst)) *
    (p.2 - qmean (ps.map Prod.snd))).sum

/-- Pearson correlation as `DataFrame.corr` computes it: `NaN` (here
`none`) when fewer than two complete pairs exist or either variance is
zero, the usual quotient otherwise. -/
noncomputable def pearson (ps : List (ℚ × ℚ)) : Option ℝ :=
  if ps.length < 2 ∨ sxx ps = 0 ∨ syy ps = 0 then none
  else some ((sxy ps : ℝ) / (Real.sqrt (sxx ps) * Real.sqrt (syy ps)))

/-- The correlation loop of lines 128-134.  The boolean mask
`df["Track"] == track` contains `pd.NA` entries as soon as any row
carries a `pd.NA` track, and indexing with such a mask raises; with a
clean column the loop yields one Pearson coefficient per `unique()`
key. -/
noncomputable def attendance_project_corr (rows : List Row) :
    Except String (List (Cell × Option ℝ)) :=
  if rows.any fun r => r.track == Cell.na then
    .error "Cannot mask with non-boolean array containing NA / NaN values"
  else .ok ((corrKeys rows).map fun k => (k, pearson (validPairs rows k)))

/-- `stats["global"]`: `df.agg(...)` — the ungrouped means. -/
structure GlobalStats where
  mathAvg : Option ℚ
  englishAvg : Option ℚ
  scienceAvg : Option ℚ
  historyAvg : Option ℚ
  attendanceAvg : Option ℚ
  projectAvg : Option ℚ
  passRate : Option ℚ
  deriving DecidableEq

/-- The global (all-tracks-combined) means of lines 137-145. -/
def globalView (rows : List Row) : GlobalStats :=
  { mathAvg := meanOpt (rows.map Row.math)
  , englishAvg := meanOpt (rows.map Row.english)
  , scienceAvg := meanOpt (rows.map Row.science)
  , historyAvg := meanOpt (rows.map Row.history)
  , attendanceAvg := meanOpt (rows.map Row.attendance)
  , projectAvg := meanOpt (rows.map Row.project)
  , passRate := passRateOpt (rows.map Row.passed) }

/-- The Statistics Bundle: the seven named views of the `stats`
dictionary. -/
structure StatsBundle where
  track : List (String × GroupStats)
  cohort : List (String × GroupStats)
  income : List (Bool × GroupStats)
  historyByTrack : List (String × List (Option ℚ))
  mathComparison : List (String × Option ℚ)
  attendanceProjectCorr : List (Cell × Option ℝ)
  globalStats : GlobalStats

/-- `compute_statistics(df)`: the seven views, assembled in source
order; the only step able to raise is the correlation loop's boolean
masking. -/
noncomputable def compute_statistics (rows : List Row) :
    Except String StatsBundle := do
  let corr ← attendance_project_corr rows
  pure
    { track := trackView rows
    , cohort := cohortView rows
    , income := incomeView rows
    , historyByTrack := historyByTrack rows
    , mathComparison := mathComparison rows
    , attendanceProjectCorr := corr
    , globalStats := globalView rows }

/-! ### Concrete fixtures used by witnesses and counterexamples -/

/-- A raw row whose cells are blank except a boolean income flag. -/
def exRawBenign : RawRow :=
  ⟨Cell.nan, Cell.nan, Cell.nan, Cell.nan, Cell.nan, Cell.nan,
    Cell.bool true, Cell.nan, Cell.nan⟩

/-- A raw row whose income cell holds the missing token `"N/A"`. -/
def exRawBadIncome : RawRow :=
  ⟨Cell.nan, Cell.nan, Cell.nan, Cell.nan, Cell.nan, Cell.nan,
    Cell.str "N/A", Cell.nan, Cell.nan⟩

/-- Cleaned row: track `"A"`, math 80, passed. -/
def exRowA1 : Row :=
  ⟨Cell.str "A", some 80, none, none, none, some 90, some 70, true,
    some true, Cell.str "C1"⟩

/-- Cleaned row: track `"A"`, math 90, failed. -/
def exRowA2 : Row :=
  ⟨Cell.str "A", some 90, none, none, none, some 95, some 80, false,
    some false, Cell.str "C1"⟩

/-- Cleaned row: track `"B"`, all data missing. -/
def exRowB : Row :=
  ⟨Cell.str "B", none, none, none, none, none, none, true, none,
    Cell.str "C2"⟩

/-! ### Helper lemmas -/

theorem charVal_digitChar {k : Nat} (h : k < 10) : charVal (digitChar k) = k := by
  interval_cases k <;> rfl

theorem digitChar_isDigit {k : Nat} (h : k < 10) : (digitChar k).isDigit = true := by
  interval_cases k <;> rfl

theorem digitsToNat_append_singleton (l : List Char) (c : Char) :
    digitsToNat (l ++ [c]) = 10 * digitsToNat l + charVal c := by
  simp [digitsToNat, List.foldl_append]

theorem natToDigitsAux_spec :
    ∀ fuel n, n < fuel →
      natToDigitsAux fuel n ≠ [] ∧
      (∀ ch ∈ natToDigitsAux fuel n, ch.isDigit = true) ∧
      digitsToNat (natToDigitsAux fuel n) = n := by
  intro fuel
  induction fuel with
  | zero => intro n hn; omega
  | succ fuel ih =>
    intro n hn
    by_cases h10 : n < 10
    · refine ⟨by simp [natToDigitsAux, h10], ?_, ?_⟩
      · intro ch hch
        simp only [natToDigitsAux, if_pos h10, List.mem_singleton] at hch
        subst hch
        exact digitChar_isDigit h10
      · simp [natToDigitsAux, h10, digitsToNat, charVal_digitChar h10]
    · have hdiv : n / 10 < fuel := by
        have := Nat.div_lt_self (show 0 < n by omega) (show 1 < 10 by omega)
        omega
      obtain ⟨hne, hdig, hval⟩ := ih (n / 10) hdiv
      refine ⟨by simp [natToDigitsAux, h10], ?_, ?_⟩
      · intro ch hch
        simp only [natToDigitsAux, if_neg h10, List.mem_append,
          List.mem_singleton] at hch
        rcases hch with hch | hch
        · exact hdig ch hch
        · subst hch
          exact digitChar_isDigit (Nat.mod_lt n (by omega))
      · rw [natToDigitsAux, if_neg h10, digitsToNat_append_singleton, hval,
          charVal_digitChar (Nat.mod_lt n (by omega))]
        omega

theorem natToDigits_ne_nil (n : Nat) : natToDigits n ≠ [] :=
  (natToDigitsAux_spec (n + 1) n (Nat.lt_succ_self n)).1

theorem natToDigits_isDigit (n : Nat) :
    ∀ ch ∈ natToDigits n, ch.isDigit = true :=
  (natToDigitsAux_spec (n + 1) n (Nat.lt_succ_self n)).2.1

theorem digitsToNat_natToDigits (n : Nat) : digitsToNat (natToDigits n) = n :=
  (natToDigitsAux_spec (n + 1) n (Nat.lt_succ_self n)).2.2

theorem foldl_map_digitChar (fp : List (Fin 10)) :
    ∀ a : Nat,
      List.foldl (fun acc c => 10 * acc + charVal c) a
        (fp.map fun i => digitChar i.val) =
      fp.foldl (fun acc i => 10 * acc + i.val) a := by
  induction fp with
  | nil => intro a; rfl
  | cons i fp ih =>
    intro a
    simp only [List.map_cons, List.foldl_cons, charVal_digitChar i.isLt, ih]

theorem digitsToNat_map_digitChar (fp : List (Fin 10)) :
    digitsToNat (fp.map fun i => digitChar i.val) =
      fp.foldl (fun acc i => 10 * acc + i.val) 0 :=
  foldl_map_digitChar fp 0

theorem takeWhile_eq_nil_of_head (p : Char → Bool) (l : List Char)
    (h : ∀ ch ∈ l.head?, p ch = false) : l.takeWhile p = [] := by
  cases l with
  | nil => rfl
  | cons c cs =>
    have := h c (by simp)
    simp [List.takeWhile_cons, this]

theorem dropWhile_eq_self_of_head (p : Char → Bool) (l : List Char)
    (h : ∀ ch ∈ l.head?, p ch = false) : l.dropWhile p = l := by
  cases l with
  | nil => rfl
  | cons c cs =>
    have := h c (by simp)
    simp [List.dropWhile_cons, this]

theorem extractFirstNumber_append_nondigit (pre rest : List Char)
    (h : ∀ ch ∈ pre, ch.isDigit = false) :
    extractFirstNumber (pre ++ rest) = extractFirstNumber rest := by
  induction pre with
  | nil => rfl
  | cons c cs ih =>
    have hc : c.isDigit = false := h c (by simp)
    rw [List.cons_append]
    simp only [extractFirstNumber, hc]
    exact ih fun ch hm => h ch (List.mem_cons_of_mem _ hm)

theorem extractFirstNumber_eq_none (l : List Char)
    (h : ∀ ch ∈ l, ch.isDigit = false) : extractFirstNumber l = none := by
  have := extractFirstNumber_append_nondigit l [] h
  rw [List.append_nil] at this
  rw [this]
  rfl

theorem extractFirstNumber_shape_dot (pre d1 d2 post : List Char)
    (hpre : ∀ ch ∈ pre, ch.isDigit = false)
    (hd1ne : d1 ≠ []) (hd1 : ∀ ch ∈ d1, ch.isDigit = true)
    (hd2 : ∀ ch ∈ d2, ch.isDigit = true)
    (hpost : ∀ ch ∈ post.head?, ch.isDigit = false) :
    extractFirstNumber (pre ++ (d1 ++ '.' :: (d2 ++ post))) = some (d1, d2) := by
  rw [extractFirstNumber_append_nondigit pre _ hpre]
  obtain ⟨a, d1', rfl⟩ : ∃ a d1', d1 = a :: d1' := by
    cases d1 with
    | nil => exact absurd rfl hd1ne
    | cons a d1' => exact ⟨a, d1', rfl⟩
  have ha : a.isDigit = true := hd1 a (by simp)
  have htw : ((a :: d1') ++ '.' :: (d2 ++ post)).takeWhile Char.isDigit =
      a :: d1' := by
    rw [List.takeWhile_append_of_pos hd1,
      takeWhile_eq_nil_of_head _ _ (by simp), List.append_nil]
  have hdw : ((a :: d1') ++ '.' :: (d2 ++ post)).dropWhile Char.isDigit =
      '.' :: (d2 ++ post) := by
    rw [List.dropWhile_append_of_pos hd1,
      dropWhile_eq_self_of_head _ _ (by simp)]
  rw [List.cons_append]
  simp only [extractFirstNumber, ha, if_pos]
  rw [← List.cons_append, htw, hdw]
  simp only [List.head?_cons, List.tail_cons, if_pos rfl]
  rw [List.takeWhile_append_of_pos hd2, takeWhile_eq_nil_of_head _ _ hpost,
    List.append_nil]
  simp

theorem extractFirstNumber_shape_nodot (pre d1 post : List Char)
    (hpre : ∀ ch ∈ pre, ch.isDigit = false)
    (hd1ne : d1 ≠ []) (hd1 : ∀ ch ∈ d1, ch.isDigit = true)
    (hpost : ∀ ch ∈ post.head?, ch.isDigit = false ∧ ch ≠ '.') :
    extractFirstNumber (pre ++ (d1 ++ post)) = some (d1, []) := by
  rw [extractFirstNumber_append_nondigit pre _ hpre]
  obtain ⟨a, d1', rfl⟩ : ∃ a d1', d1 = a :: d1' := by
    cases d1 with
    | nil => exact absurd rfl hd1ne
    | cons a d1' => exact ⟨a, d1', rfl⟩
  have ha : a.isDigit = true := hd1 a (by simp)
  have htw : ((a :: d1') ++ post).takeWhile Char.isDigit = a :: d1' := by
    rw [List.takeWhile_append_of_pos hd1,
      takeWhile_eq_nil_of_head _ _ (fun ch hm => (hpost ch hm).1),
      List.append_nil]
  have hdw : ((a :: d1') ++ post).dropWhile Char.isDigit = post := by
    rw [List.dropWhile_append_of_pos hd1,
      dropWhile_eq_self_of_head _ _ (fun ch hm => (hpost ch hm).1)]
  have hhd : post.head? ≠ some '.' := by
    intro hc
    exact (hpost '.' (by rw [hc]; rfl)).2 rfl
  rw [List.cons_append]
  simp only [extractFirstNumber, ha, if_pos]
  rw [← List.cons_append, htw, hdw, if_neg hhd]

theorem filterMap_id_map_optmap {α β : Type} (f : α → β) (xs : List (Option α)) :
    (xs.map (Option.map f)).filterMap id = (xs.filterMap id).map f := by
  induction xs with
  | nil => rfl
  | cons x xs ih => cases x <;> simp [ih]

theorem sum_map_indicator (vs : List Bool) :
    (vs.map fun b => if b then (1 : ℚ) else 0).sum = vs.countP id := by
  induction vs with
  | nil => simp
  | cons b bs ih =>
    cases b
    · simp [ih, List.countP_cons]
    · simp [ih, List.countP_cons]
      ring

theorem passRateOpt_spec (xs : List (Option Bool)) :
    passRateOpt xs =
      if (xs.filterMap id).isEmpty then none
      else some (((xs.filterMap id).countP id : ℚ) /
        ((xs.filterMap id).length : ℚ)) := by
  unfold passRateOpt meanOpt
  rw [filterMap_id_map_optmap]
  cases h : xs.filterMap id with
  | nil => simp
  | cons v vs =>
    have := sum_map_indicator (v :: vs)
    simp only [List.isEmpty_cons, Bool.false_eq_true, if_false, this]
    simp

theorem meanOpt_all_none (xs : List (Option ℚ)) (h : ∀ x ∈ xs, x = none) :
    meanOpt xs = none := by
  have hnil : xs.filterMap id = [] := by
    rw [List.filterMap_eq_nil_iff]
    intro a ha
    rw [h a ha]
    rfl
  unfold meanOpt
  rw [hnil]
  rfl

theorem pair_mem_keyed_map {α β : Type} {keys : List α} {f : α → β} {k : α}
    {s : β} (h : (k, s) ∈ keys.map fun x => (x, f x)) : s = f k := by
  rw [List.mem_map] at h
  obtain ⟨a, _, ha⟩ := h
  obtain ⟨h1, h2⟩ := Prod.mk.injEq .. ▸ ha
  rw [← h2, h1]

theorem map_fst_keyed {α β : Type} (keys : List α) (f : α → β) :
    (keys.map fun k => (k, f k)).map Prod.fst = keys := by
  rw [List.map_map]
  exact List.map_id keys

theorem normalizeSheet_track (name : String) :
    ∀ (tbl : List RawRow) (out : List Row),
      normalizeSheet name tbl = .ok out →
      ∀ r ∈ out, r.track = substituteMissing (Cell.str name) := by
  intro tbl
  induction tbl with
  | nil =>
    intro out hout r hr
    simp only [normalizeSheet] at hout
    cases hout
    simp at hr
  | cons x xs ih =>
    intro out hout r hr
    simp only [normalizeSheet] at hout
    cases hinc : decodeIncome x.income with
    | error e => rw [normalizeRow, hinc] at hout; cases hout
    | ok b =>
      rw [normalizeRow, hinc] at hout
      cases hrest : normalizeSheet name xs with
      | error e => rw [hrest] at hout; cases hout
      | ok rest =>
        rw [hrest] at hout
        cases hout
        rcases List.mem_cons.mp hr with hr | hr
        · rw [hr]
        · exact ih rest hrest r hr

theorem concatSheets_mem :
    ∀ (sheets : List (String × List RawRow)) (rows : List Row),
      concatSheets sheets = .ok rows →
      ∀ r ∈ rows, ∃ p ∈ sheets, ∃ out,
        normalizeSheet p.1 p.2 = .ok out ∧ r ∈ out := by
  intro sheets
  induction sheets with
  | nil =>
    intro rows hout r hr
    simp only [concatSheets] at hout
    cases hout
    simp at hr
  | cons p ps ih =>
    intro rows hout r hr
    obtain ⟨name, tbl⟩ := p
    simp only [concatSheets] at hout
    cases hsheet : normalizeSheet name tbl with
    | error e => rw [hsheet] at hout; cases hout
    | ok out =>
      rw [hsheet] at hout
      cases hrest : concatSheets ps with
      | error e => rw [hrest] at hout; cases hout
      | ok more =>
        rw [hrest] at hout
        cases hout
        rcases List.mem_append.mp hr with hr | hr
        · exact ⟨(name, tbl), by simp, out, hsheet, hr⟩
        · obtain ⟨q, hq, o, ho, hro⟩ := ih more hrest r hr
          exact ⟨q, List.mem_cons_of_mem _ hq, o, ho, hro⟩

/-! ### Claims -/

/-- C2.  For every source value in the pass/fail column, the normalizer
trims surrounding whitespace and uppercases the textual form, maps
exactly `"Y"` to true and `"N"` to false, and every other value —
including values already marked missing — maps to null, never to
false. -/
theorem c2_passed_decoding :
    (∀ c : Cell,
      (decodePassed c = some true ↔
        upperChars (stripChars (cellToStr (substituteMissing c)).data) = ['Y']) ∧
      (decodePassed c = some false ↔
        upperChars (stripChars (cellToStr (substituteMissing c)).data) = ['N'])) ∧
    decodePassed (Cell.str " y ") = some true ∧
    decodePassed (Cell.str " n") = some false ∧
    decodePassed (Cell.str "N/A") = none ∧
    decodePassed Cell.nan = none ∧
    decodePassed (Cell.str "maybe") = none := by
  refine ⟨?_, rfl, rfl, rfl, rfl, rfl⟩
  intro c
  unfold decodePassed
  constructor
  · constructor
    · intro h
      by_cases h1 : upperChars (stripChars (cellToStr (substituteMissing c)).data) = ['Y']
      · exact h1
      · rw [if_neg h1] at h
        split at h <;> simp_all
    · intro h
      rw [if_pos h]
  · constructor
    · intro h
      by_cases h1 : upperChars (stripChars (cellToStr (substituteMissing c)).data) = ['Y']
      · rw [if_pos h1] at h
        cases h
      · by_cases h2 : upperChars (stripChars (cellToStr (substituteMissing c)).data) = ['N']
        · exact h2
        · rw [if_neg h1, if_neg h2] at h
          cases h
    · intro h
      have h1 : upperChars (stripChars (cellToStr (substituteMissing c)).data) ≠ ['Y'] := by
        rw [h]
        decide
      rw [if_neg h1, if_pos h]

/-- C9 (amended).  Numeric coercion is idempotent on non-negative
numeric cells: coercing a numeric cell whose value is non-negative
yields exactly that value, and coercing a null cell (blank `NaN` or
substituted `pd.NA`) yields null.  (The unamended claim fails on
negative values: the extraction regex drops the minus sign, see the
counterexample.) -/
theorem c9_coercion_idempotent (d : Decimal) (hneg : d.neg = false) :
    coerceNumeric (Cell.num d) = some d.toRat ∧
    coerceNumeric Cell.nan = none ∧
    coerceNumeric Cell.na = none := by
  refine ⟨?_, rfl, rfl⟩
  show coerceNumericStr (cellToStr (substituteMissing (Cell.num d))) = _
  have hsub : substituteMissing (Cell.num d) = Cell.num d := rfl
  rw [hsub]
  show coerceNumericStr ⟨d.render⟩ = _
  unfold coerceNumericStr
  have hdata : (String.mk d.render).data = d.render := rfl
  rw [hdata]
  unfold Decimal.render
  rw [hneg]
  simp only [Bool.false_eq_true, if_false, List.nil_append]
  by_cases hfp : d.fp.isEmpty
  · rw [if_pos hfp]
    have hext := extractFirstNumber_shape_dot [] (natToDigits d.ip) ['0'] []
      (by simp) (natToDigits_ne_nil d.ip) (natToDigits_isDigit d.ip)
      (by decide) (by simp)
    simp only [List.nil_append, List.append_nil] at hext
    rw [hext]
    rw [Option.map_some']
    congr 1
    unfold numVal Decimal.toRat
    rw [digitsToNat_natToDigits]
    have : d.fp = [] := List.isEmpty_iff.mp hfp
    rw [this, hneg, show digitsToNat ['0'] = 0 from rfl]
    norm_num
  · rw [if_neg hfp]
    have hext := extractFirstNumber_shape_dot [] (natToDigits d.ip)
      (d.fp.map fun i => digitChar i.val) []
      (by simp) (natToDigits_ne_nil d.ip) (natToDigits_isDigit d.ip)
      (by
        intro ch hch
        rw [List.mem_map] at hch
        obtain ⟨i, _, rfl⟩ := hch
        exact digitChar_isDigit i.isLt)
      (by simp)
    simp only [List.nil_append, List.append_nil] at hext
    rw [hext]
    rw [Option.map_some']
    congr 1
    unfold numVal Decimal.toRat
    rw [digitsToNat_natToDigits, digitsToNat_map_digitChar, hneg,
      List.length_map]
    norm_num

/-- C9, counterexample to the unamended claim.  The numeric cell
holding `-3.0` coerces to `3`, not to its own value `-3`: the
extraction regex `(\d+\.?\d*)` has no sign, so coercion is not
idempotent on negative numeric cells. -/
theorem c9_counterexample :
    coerceNumeric (Cell.num ⟨true, 3, []⟩) = some 3 ∧
    Decimal.toRat ⟨true, 3, []⟩ = -3 ∧
    coerceNumeric (Cell.num ⟨true, 3, []⟩) ≠
      some (Decimal.toRat ⟨true, 3, []⟩) := by
  have htr : Decimal.toRat ⟨true, 3, []⟩ = -3 := by
    norm_num [Decimal.toRat]
  have hco : coerceNumeric (Cell.num ⟨true, 3, []⟩) = some 3 := by
    have hext : extractFirstNumber
        (cellToStr (substituteMissing (Cell.num ⟨true, 3, []⟩))).data =
        some (['3'], ['0']) := rfl
    unfold coerceNumeric coerceNumericStr
    rw [hext]
    norm_num [numVal, show digitsToNat ['3'] = 3 from rfl,
      show digitsToNat ['0'] = 0 from rfl]
  refine ⟨hco, htr, ?_⟩
  rw [hco, htr]
  intro h
  rw [Option.some.injEq] at h
  norm_num at h

/-- C10 (implicit claim).  Every value produced by the numeric-column
coercion is non-negative: the extraction pattern keeps only an unsigned
digit sequence with an optional decimal point, so minus signs are
discarded and no negative number enters the normalized dataset — as
the second conjunct shows on the cell holding `-30.0`. -/
theorem c10_coerced_nonneg :
    (∀ (c : Cell) (v : ℚ), coerceNumeric c = some v → 0 ≤ v) ∧
    coerceNumeric (Cell.num ⟨true, 30, []⟩) = some 30 := by
  constructor
  · intro c v h
    unfold coerceNumeric coerceNumericStr at h
    cases hext : extractFirstNumber (cellToStr (substituteMissing c)).data with
    | none => rw [hext] at h; cases h
    | some p =>
      rw [hext] at h
      rw [Option.map_some', Option.some.injEq] at h
      rw [← h]
      unfold numVal
      positivity
  · have hext : extractFirstNumber
        (cellToStr (substituteMissing (Cell.num ⟨true, 30, []⟩))).data =
        some (['3', '0'], ['0']) := rfl
    unfold coerceNumeric coerceNumericStr
    rw [hext]
    norm_num [numVal, show digitsToNat ['3', '0'] = 30 from rfl,
      show digitsToNat ['0'] = 0 from rfl]

/-- C10, witness. -/
theorem c10_witness : (0 : ℚ) ≤ 30 :=
  c10_coerced_nonneg.1 (Cell.num ⟨true, 30, []⟩) 30 c10_coerced_nonneg.2

/-- C9, witness. -/
theorem c9_witness :
    coerceNumeric (Cell.num ⟨false, 12, [5]⟩) =
      some (Decimal.toRat ⟨false, 12, [5]⟩) :=
  (c9_coercion_idempotent ⟨false, 12, [5]⟩ rfl).1

/-- C4 (amended).  Per-cell coercion degrades to null instead of
raising: a cell that is missing after substitution, or whose textual
form holds no digit, coerces to null; a cell whose textual form holds a
digit run (optionally followed by a decimal point and more digits)
coerces to the value of that first maximal numeric substring; the
pass/fail decoder is likewise total (it is `Option`-valued by
construction).  The unamended claim fails for the income decoder,
which raises on missing cells (see the counterexample): on every
non-missing cell it returns a boolean without raising. -/
theorem c4_coercion_degrades_to_null :
    (∀ c : Cell, substituteMissing c = Cell.na → coerceNumeric c = none) ∧
    (∀ s : String, (∀ ch ∈ s.data, ch.isDigit = false) →
      coerceNumericStr s = none) ∧
    (∀ pre d1 d2 post : List Char,
      (∀ ch ∈ pre, ch.isDigit = false) → d1 ≠ [] →
      (∀ ch ∈ d1, ch.isDigit = true) → (∀ ch ∈ d2, ch.isDigit = true) →
      (∀ ch ∈ post.head?, ch.isDigit = false) →
      coerceNumericStr ⟨pre ++ (d1 ++ '.' :: (d2 ++ post))⟩ =
        some (numVal d1 d2)) ∧
    (∀ pre d1 post : List Char,
      (∀ ch ∈ pre, ch.isDigit = false) → d1 ≠ [] →
      (∀ ch ∈ d1, ch.isDigit = true) →
      (∀ ch ∈ post.head?, ch.isDigit = false ∧ ch ≠ '.') →
      coerceNumericStr ⟨pre ++ (d1 ++ post)⟩ = some (numVal d1 [])) ∧
    (∀ c : Cell, substituteMissing c ≠ Cell.na →
      ∃ b, decodeIncome c = .ok b) := by
  refine ⟨?_, ?_, ?_, ?_, ?_⟩
  · intro c h
    unfold coerceNumeric
    rw [h]
    rfl
  · intro s h
    unfold coerceNumericStr
    rw [extractFirstNumber_eq_none s.data h]
    rfl
  · intro pre d1 d2 post hpre hd1ne hd1 hd2 hpost
    unfold coerceNumericStr
    rw [show (String.mk (pre ++ (d1 ++ '.' :: (d2 ++ post)))).data =
      pre ++ (d1 ++ '.' :: (d2 ++ post)) from rfl]
    rw [extractFirstNumber_shape_dot pre d1 d2 post hpre hd1ne hd1 hd2 hpost]
    rfl
  · intro pre d1 post hpre hd1ne hd1 hpost
    unfold coerceNumericStr
    rw [show (String.mk (pre ++ (d1 ++ post))).data =
      pre ++ (d1 ++ post) from rfl]
    rw [extractFirstNumber_shape_nodot pre d1 post hpre hd1ne hd1 hpost]
    rfl
  · intro c h
    unfold decodeIncome
    split
    · rename_i heq
      exact absurd heq h
    · exact ⟨_, rfl⟩

/-- C4, counterexample to the unamended claim.  An income cell holding
the missing token `"Waived"` is substituted to `pd.NA`, and
`astype(bool)` then raises `TypeError` — income-flag decoding is not
exception-free. -/
theorem c4_counterexample :
    decodeIncome (Cell.str "Waived") =
      .error "boolean value of NA is ambiguous" := rfl

/-- C4, witness. -/
theorem c4_witness :
    coerceNumericStr ⟨['a'] ++ (['1'] ++ '.' :: (['5'] ++ ['x']))⟩ =
      some (numVal ['1'] ['5']) :=
  c4_coercion_degrades_to_null.2.2.1 ['a'] ['1'] ['5'] ['x']
    (by decide) (by decide) (by decide) (by decide)
    (by intro ch hch; simp at hch; subst hch; decide)

/-- C3.  In each of the track, cohort and income views, the pass rate
of a group is the number of true pass values divided by the number of
non-null pass values of that group — nulls leave both numerator and
denominator — and it is null (not 0) when the group has no non-null
pass value; a numeric mean over a group with no non-null values is
likewise null. -/
theorem c3_group_rates :
    (∀ xs : List (Option Bool),
      passRateOpt xs =
        if (xs.filterMap id).isEmpty then none
        else some (((xs.filterMap id).countP id : ℚ) /
          ((xs.filterMap id).length : ℚ))) ∧
    (∀ xs : List (Option ℚ), (∀ x ∈ xs, x = none) → meanOpt xs = none) ∧
    (∀ (rows : List Row) (k : String) (s : GroupStats),
      (k, s) ∈ trackView rows →
      s.passRate = passRateOpt ((trackGroup rows k).map Row.passed) ∧
      s.mathAvg = meanOpt ((trackGroup rows k).map Row.math)) ∧
    (∀ (rows : List Row) (k : String) (s : GroupStats),
      (k, s) ∈ cohortView rows →
      s.passRate = passRateOpt ((cohortGroup rows k).map Row.passed) ∧
      s.mathAvg = meanOpt ((cohortGroup rows k).map Row.math)) ∧
    (∀ (rows : List Row) (b : Bool) (s : GroupStats),
      (b, s) ∈ incomeView rows →
      s.passRate = passRateOpt ((incomeGroup rows b).map Row.passed) ∧
      s.mathAvg = meanOpt ((incomeGroup rows b).map Row.math)) := by
  refine ⟨passRateOpt_spec, meanOpt_all_none, ?_, ?_, ?_⟩
  · intro rows k s h
    unfold trackView at h
    rw [pair_mem_keyed_map h]
    exact ⟨rfl, rfl⟩
  · intro rows k s h
    unfold cohortView at h
    rw [pair_mem_keyed_map h]
    exact ⟨rfl, rfl⟩
  · intro rows b s h
    unfold incomeView at h
    rw [pair_mem_keyed_map h]
    exact ⟨rfl, rfl⟩

/-- C3, witness. -/
theorem c3_witness :
    (statsOf (trackGroup [exRowA1, exRowA2, exRowB] "A")).passRate =
      passRateOpt ((trackGroup [exRowA1, exRowA2, exRowB] "A").map
        Row.passed) :=
  (c3_group_rates.2.2.1 [exRowA1, exRowA2, exRowB] "A"
    (statsOf (trackGroup [exRowA1, exRowA2, exRowB] "A"))
    (by
      rw [show trackView [exRowA1, exRowA2, exRowB] =
        [("A", statsOf (trackGroup [exRowA1, exRowA2, exRowB] "A")),
         ("B", statsOf (trackGroup [exRowA1, exRowA2, exRowB] "B"))]
        from rfl]
      exact List.mem_cons_self _ _)).1

/-- C5.  The `math_comparison` view is exactly the `MathAvg` column of
the `track` view: for every input and every group, the two agree
because both are the mean of `Math` over the same `groupby("Track")`
groups. -/
theorem c5_math_comparison_projection (rows : List Row) :
    mathComparison rows = (trackView rows).map fun p => (p.1, p.2.mathAvg) := by
  unfold mathComparison trackView
  rw [List.map_map]
  rfl

/-- C6.  In the attendance/project correlation view, a track with
fewer than two complete `(attendance, project)` pairs, or with zero
variance in either coordinate, gets a null (`NaN`) correlation — not
an exception and not the number 0. -/
theorem c6_degenerate_corr_null (rows : List Row) (k : Cell)
    (s : Option ℝ) (l : List (Cell × Option ℝ))
    (hok : attendance_project_corr rows = .ok l) (hmem : (k, s) ∈ l)
    (hdeg : (validPairs rows k).length < 2 ∨ sxx (validPairs rows k) = 0 ∨
      syy (validPairs rows k) = 0) :
    s = none := by
  unfold attendance_project_corr at hok
  split at hok
  · cases hok
  · cases hok
    rw [pair_mem_keyed_map hmem]
    unfold pearson
    rw [if_pos hdeg]

/-- C6, witness. -/
theorem c6_witness : pearson (validPairs [exRowB] (Cell.str "B")) = none :=
  c6_degenerate_corr_null [exRowB] (Cell.str "B") _ _ rfl
    (List.mem_singleton.mpr rfl)
    (Or.inl (by
      rw [show validPairs [exRowB] (Cell.str "B") = [] from rfl]
      decide))

/-- C1 (amended).  `compute_statistics` raises no
`InsufficientDataError` — no such error exists in the program — and on
the empty record set it returns all seven views (empty, with null
global means) rather than failing; on every record set whose `track`
values are non-null it succeeds and produces all seven views, one
entry per distinct group key, so groups lacking data appear with null
aggregates rather than being omitted.  (The only failure the
aggregator can produce is the boolean-mask `ValueError` in the
correlation loop when a row's track is `pd.NA`.) -/
theorem c1_aggregation_total (rows : List Row)
    (h : ∀ r ∈ rows, r.track ≠ Cell.na) :
    compute_statistics rows = .ok
      { track := trackView rows
      , cohort := cohortView rows
      , income := incomeView rows
      , historyByTrack := historyByTrack rows
      , mathComparison := mathComparison rows
      , attendanceProjectCorr :=
          (corrKeys rows).map fun k => (k, pearson (validPairs rows k))
      , globalStats := globalView rows } ∧
    (trackView rows).map Prod.fst = trackKeys rows ∧
    (cohortView rows).map Prod.fst = cohortKeys rows ∧
    (incomeView rows).map Prod.fst = incomeKeys rows ∧
    (historyByTrack rows).map Prod.fst = trackKeys rows ∧
    (mathComparison rows).map Prod.fst = trackKeys rows := by
  refine ⟨?_, map_fst_keyed _ _, map_fst_keyed _ _, map_fst_keyed _ _,
    map_fst_keyed _ _, map_fst_keyed _ _⟩
  unfold compute_statistics attendance_project_corr
  rw [if_neg]
  · rfl
  · intro hany
    rw [List.any_eq_true] at hany
    obtain ⟨r, hr, hna⟩ := hany
    exact h r hr (eq_of_beq hna)

/-- C1, counterexample to the unamended claim.  On the empty record
set `compute_statistics` returns a full (empty-viewed) bundle; it does
not raise `InsufficientDataError` — nothing in the program defines or
raises such an error. -/
theorem c1_counterexample :
    compute_statistics ([] : List Row) = .ok
      ⟨[], [], [], [], [], [],
        ⟨none, none, none, none, none, none, none⟩⟩ := rfl

/-- C1, witness. -/
theorem c1_witness :
    compute_statistics [exRowB] = .ok
      { track := trackView [exRowB]
      , cohort := cohortView [exRowB]
      , income := incomeView [exRowB]
      , historyByTrack := historyByTrack [exRowB]
      , mathComparison := mathComparison [exRowB]
      , attendanceProjectCorr :=
          (corrKeys [exRowB]).map fun k => (k, pearson (validPairs [exRowB] k))
      , globalStats := globalView [exRowB] } :=
  (c1_aggregation_total [exRowB] (by
    intro r hr
    rw [List.mem_singleton] at hr
    subst hr
    decide)).1

/-- C7 (amended).  Every row of the merged dataset carries the track
cell produced from its source sheet's name; that cell is the non-null
string label whenever the sheet name is not one of the missing tokens
`"Waived"`, `"N/A"`, `"NA"`, `""`.  (The unamended claim fails when a
sheet is named by a missing token: the uniform `replace` nulls the
whole `Track` column of that sheet, see the counterexample.) -/
theorem c7_track_invariant (sheets : List (String × List RawRow))
    (rows : List Row) (hload : load_and_clean_excel sheets = .ok rows)
    (hnames : ∀ p ∈ sheets, p.1 ∉ missingTokens)
    (r : Row) (hr : r ∈ rows) :
    ∃ p ∈ sheets, r.track = Cell.str p.1 := by
  unfold load_and_clean_excel at hload
  by_cases hempty : sheets.isEmpty
  · rw [if_pos hempty] at hload
    cases hload
  · rw [if_neg hempty] at hload
    obtain ⟨p, hp, out, hout, hrout⟩ := concatSheets_mem sheets rows hload r hr
    refine ⟨p, hp, ?_⟩
    rw [normalizeSheet_track p.1 p.2 out hout r hrout]
    simp [substituteMissing, hnames p hp]

/-- C7, counterexample to the unamended claim.  A sheet named `"NA"`
yields rows whose track is `pd.NA`, not the sheet's label: the
missing-token substitution runs after the label is attached and
rewrites it. -/
theorem c7_counterexample :
    load_and_clean_excel [("NA", [exRawBenign])] =
      .ok [⟨Cell.na, none, none, none, none, none, none, true, none,
        Cell.nan⟩] ∧
    Cell.na ≠ Cell.str "NA" := ⟨rfl, by decide⟩

/-- C7, witness. -/
theorem c7_witness :
    ∃ p ∈ [("A", [exRawBenign])],
      (⟨Cell.str "A", none, none, none, none, none, none, true, none,
        Cell.nan⟩ : Row).track = Cell.str p.1 :=
  c7_track_invariant [("A", [exRawBenign])]
    [⟨Cell.str "A", none, none, none, none, none, none, true, none,
      Cell.nan⟩]
    rfl (by decide) _ (List.mem_singleton.mpr rfl)

/-- C8 (amended).  For every source value of the income flag that is
not a missing token, `income_student` is the Python truthiness of the
(substituted) value — `0` decodes to false, `"yes"` to true, a blank
`NaN` cell to true — and no exception is raised on such values.  (The
unamended "never raises" claim fails on missing values: `astype(bool)`
raises on `pd.NA`, see the counterexample.) -/
theorem c8_income_truthiness :
    (∀ c : Cell, substituteMissing c ≠ Cell.na →
      decodeIncome c = .ok (cellTruthy (substituteMissing c))) ∧
    decodeIncome (Cell.num ⟨false, 0, []⟩) = .ok false ∧
    decodeIncome (Cell.str "yes") = .ok true ∧
    decodeIncome Cell.nan = .ok true := by
  refine ⟨?_, ?_, rfl, rfl⟩
  · intro c h
    unfold decodeIncome
    split
    · rename_i heq
      exact absurd heq h
    · rfl
  · simp [decodeIncome, substituteMissing, cellTruthy, Decimal.toRat]

/-- C8, counterexample to the unamended claim.  A sheet whose income
column holds the token `"N/A"` makes the whole loader raise
`TypeError` out of `astype(bool)` — the decode is not raise-free. -/
theorem c8_counterexample :
    load_and_clean_excel [("A", [exRawBadIncome])] =
      .error "boolean value of NA is ambiguous" := rfl

/-- C8, witness. -/
theorem c8_witness :
    decodeIncome (Cell.str "yes") =
      .ok (cellTruthy (substituteMissing (Cell.str "yes"))) :=
  c8_income_truthiness.1 (Cell.str "yes") (by decide)

end ReportGen


